import Mathlib

/-!
Shallow embedding of the statistical A/B-testing and scoring-aggregation
engine of the lead-generation backend
(`backend/src/services/analytics/abTestingService.ts`,
`backend/src/services/analytics/customScoringService.ts`, and the campaign
metrics aggregator in `backend/src/services/leadSources/linkedinService.ts`).

JavaScript numbers are modelled as exact rationals (`ℚ`); the only places
where IEEE-754 behaviour is semantically load-bearing (division by zero
producing `NaN` or `Infinity`) are modelled explicitly, with `Option ℚ`
where `NaN` can escape into a result field.  Database state (Prisma rows)
is modelled as explicit lists of records threaded through the operations.
-/

/-- JavaScript `Math.round`: round half toward positive infinity. -/
def jsRound (x : ℚ) : ℤ := ⌊x + 1/2⌋

/-- The ubiquitous `Math.round(x * 100) / 100` two-decimal rounding. -/
def round2 (x : ℚ) : ℚ := (jsRound (x * 100) : ℚ) / 100

namespace AbTesting

/-- A row of the `abTestVariant` table: name, traffic share and the
denormalized counters updated by `trackEvent`. -/
structure Variant where
  id : String
  name : String
  trafficPercent : ℚ
  impressions : ℕ
  clicks : ℕ
  conversions : ℕ
  revenue : ℚ
  deriving DecidableEq

/-- A row of the `abTest` table (the fields the core logic reads). -/
structure AbTest where
  id : String
  status : String
  variants : List Variant
  confidenceLevel : ℚ
  minSampleSize : ℕ
  deriving DecidableEq

/-- A row of the `abTestResult` table: the append-only event ledger. -/
structure AbTestResultRec where
  testId : String
  variantId : String
  leadId : String
  event : String
  value : Option ℚ
  deriving DecidableEq

/-- The traffic-split validation performed by `createAbTest`
(abTestingService.ts lines 54-57): the sum of the variant traffic
percentages must be within 0.01 of 100, otherwise creation throws. -/
def validTrafficSplit (variants : List Variant) : Bool :=
  decide (|(variants.map (fun v => v.trafficPercent)).sum - 100| ≤ 1/100)

/-- Predicate matched by the `findFirst` lookup in `assignVariant`
(abTestingService.ts lines 123-129): an `ASSIGNED` ledger row for the
given (test, lead) pair. -/
def isAssignedFor (testId leadId : String) (r : AbTestResultRec) : Bool :=
  r.testId == testId && r.leadId == leadId && r.event == "ASSIGNED"

/-- `prisma.abTestResult.findFirst` on the assignment predicate: the first
matching row of the ledger. -/
def findFirstAssignment (results : List AbTestResultRec) (testId leadId : String) :
    Option AbTestResultRec :=
  results.find? (isAssignedFor testId leadId)

/-- The selection loop of `assignVariant` (abTestingService.ts lines
137-146): walk the variants accumulating `trafficPercent` into
`cumulative` and stop at the first variant with `random <= cumulative`. -/
def selectLoop (variants : List Variant) (random cumulative : ℚ) : Option Variant :=
  match variants with
  | [] => none
  | v :: rest =>
    if random ≤ cumulative + v.trafficPercent then some v
    else selectLoop rest random (cumulative + v.trafficPercent)

/-- The full selection of `assignVariant` including the initialisation
`let selectedVariant = test.variants[0]` (line 138): when the loop never
fires, the variant that remains selected is the FIRST one. -/
def selectVariant (variants : List Variant) (random : ℚ) : Option Variant :=
  match selectLoop variants random 0 with
  | some v => some v
  | none => variants.head?

/-- Modelled from the spec (§4.2): "walks variants in a fixed, stable
order accumulating traffic-percentage; the first variant whose cumulative
sum reaches/exceeds the draw is selected".  Expressed by peeling one
variant at a time and lowering the draw by its share: `random ≤ p₁ + ⋯ + pᵢ`
iff `random - p₁ - ⋯ - pᵢ₋₁ ≤ pᵢ`. -/
def firstReaching (variants : List Variant) (random : ℚ) : Option Variant :=
  match variants with
  | [] => none
  | v :: rest =>
    if random ≤ v.trafficPercent then some v
    else firstReaching rest (random - v.trafficPercent)

/-- `assignVariant` (abTestingService.ts lines 111-178).  The test row is
passed in place of the `findUnique` lookup; `random` stands for the
`Math.random() * 100` draw; the ledger is threaded explicitly.  A test
with no variants would crash in JS reading `selectedVariant.id`, modelled
as an error. -/
def assignVariant (test : AbTest) (leadId : String) (random : ℚ)
    (results : List AbTestResultRec) : Except String (String × List AbTestResultRec) :=
  if test.status ≠ "RUNNING" then .error "Test is not running"
  else
    match findFirstAssignment results test.id leadId with
    | some existing => .ok (existing.variantId, results)
    | none =>
      match selectVariant test.variants random with
      | some v => .ok (v.id, results ++ [⟨test.id, v.id, leadId, "ASSIGNED", none⟩])
      | none => .error "Test has no variants"

/-- `trackEvent` (abTestingService.ts lines 180-222): append the ledger
row, then increment the counter matching the event kind.  The `REVENUE`
branch increments by `value || 0`, so an absent value adds 0 and a
negative value is added as-is; no event kind ever fails. -/
def trackEvent (testId : String) (variant : Variant) (leadId : String)
    (event : String) (value : Option ℚ) (results : List AbTestResultRec) :
    List AbTestResultRec × Variant :=
  let results2 := results ++ [⟨testId, variant.id, leadId, event, value⟩]
  let variant2 :=
    if event = "IMPRESSION" then { variant with impressions := variant.impressions + 1 }
    else if event = "CLICK" then { variant with clicks := variant.clicks + 1 }
    else if event = "CONVERSION" then { variant with conversions := variant.conversions + 1 }
    else if event = "REVENUE" then { variant with revenue := variant.revenue + value.getD 0 }
    else variant
  (results2, variant2)

/-- Confidence interval bounds as returned by
`calculateConfidenceInterval` (abTestingService.ts lines 398-414). -/
structure CI where
  lower : ℚ
  upper : ℚ
  deriving DecidableEq

/-- One element of the `variants` array of `AbTestResults`
(abTestingService.ts lines 238-252 build it from the variant rows). -/
structure VariantResult where
  id : String
  name : String
  impressions : ℕ
  clicks : ℕ
  conversions : ℕ
  revenue : ℚ
  conversionRate : ℚ
  revenuePerConversion : ℚ
  confidence : Option CI
  deriving DecidableEq

/-- The per-variant mapping of `getTestResults` (lines 238-252): guarded
conversion rate and revenue per conversion, both rounded to 2 decimals;
no confidence interval yet. -/
def mkVariantResult (v : Variant) : VariantResult :=
  let conversionRate := if 0 < v.impressions then ((v.conversions : ℚ) / v.impressions) * 100 else 0
  let revenuePerConversion := if 0 < v.conversions then v.revenue / v.conversions else 0
  ⟨v.id, v.name, v.impressions, v.clicks, v.conversions, v.revenue,
    round2 conversionRate, round2 revenuePerConversion, none⟩

/-- The `winner` object of the statistical analysis. -/
structure Winner where
  variantId : String
  variantName : String
  improvement : ℚ
  deriving DecidableEq

/-- Return value of `performStatisticalAnalysis`. -/
structure AnalysisOut where
  significance : ℚ
  winner : Option Winner
  recommendation : String
  deriving DecidableEq

/-- The conversion fraction `variant.conversions / variant.impressions`
used inside `performStatisticalAnalysis` (lines 356-357). -/
def conversionFraction (v : VariantResult) : ℚ :=
  (v.conversions : ℚ) / (v.impressions : ℚ)

/-- The raw (pre-rounding) significance computed by
`performStatisticalAnalysis` (lines 356-365):
pooled proportion, standard error, z-score, two-tailed p-value via the
standard-normal CDF, then `(1 - pValue) * 100`.  `sqrtFn` and `cdf` stand
for `Math.sqrt` and `stats.cumulativeStdNormalProbability`, which are
irrational-valued and so passed as parameters of the model. -/
def rawSignificance (sqrtFn cdf : ℚ → ℚ) (control treatment : VariantResult) : ℚ :=
  let p1 := conversionFraction control
  let p2 := conversionFraction treatment
  let pooledP := ((control.conversions : ℚ) + (treatment.conversions : ℚ)) /
    ((control.impressions : ℚ) + (treatment.impressions : ℚ))
  let se := sqrtFn (pooledP * (1 - pooledP) *
    (1 / (control.impressions : ℚ) + 1 / (treatment.impressions : ℚ)))
  let zScore := |p2 - p1| / se
  let pValue := 2 * (1 - cdf |zScore|)
  (1 - pValue) * 100

/-- `performStatisticalAnalysis` (abTestingService.ts lines 343-396).
With exactly two variants it compares the raw significance against the
confidence level; the winner is `p2 > p1 ? treatment : control` and the
improvement is `|(p2 - p1) / p1| * 100` with the CONTROL rate as the
denominator.  Any other variant count returns significance 0 and an
explanatory recommendation (no exception). -/
def performStatisticalAnalysis (sqrtFn cdf : ℚ → ℚ) (variants : List VariantResult)
    (confidenceLevel : ℚ) : AnalysisOut :=
  match variants with
  | [control, treatment] =>
    let p1 := conversionFraction control
    let p2 := conversionFraction treatment
    let significance := rawSignificance sqrtFn cdf control treatment
    if confidenceLevel ≤ significance then
      let better := if p1 < p2 then treatment else control
      let improvement := |(p2 - p1) / p1| * 100
      ⟨round2 significance,
        some ⟨better.id, better.name, round2 improvement⟩,
        better.name ++ " is significantly better. Implement this variant."⟩
    else if 80 ≤ significance then
      ⟨round2 significance, none, "Test showing promising results but needs more data"⟩
    else
      ⟨round2 significance, none, "Continue test - not enough data for conclusive results"⟩
  | _ => ⟨0, none, "Statistical analysis only supported for 2-variant tests"⟩

/-- `calculateConfidenceInterval` (abTestingService.ts lines 398-414):
Wald interval clamped to [0, 100], with `probitFn` standing for
`stats.probit`. -/
def calculateConfidenceInterval (sqrtFn probitFn : ℚ → ℚ)
    (conversions impressions : ℕ) (confidenceLevel : ℚ) : CI :=
  if impressions = 0 then ⟨0, 0⟩
  else
    let p := (conversions : ℚ) / (impressions : ℚ)
    let z := probitFn ((1 + confidenceLevel / 100) / 2)
    let margin := z * sqrtFn ((p * (1 - p)) / (impressions : ℚ))
    ⟨max 0 ((jsRound ((p - margin) * 10000) : ℚ) / 100),
      min 100 ((jsRound ((p + margin) * 10000) : ℚ) / 100)⟩

/-- The `AbTestResults` report returned by `getTestResults`
(abTestingService.ts lines 21-48): winner, significance and
recommendation are OPTIONAL fields, left absent when the analysis gate
does not fire. -/
structure AbTestResults where
  testId : String
  status : String
  variants : List VariantResult
  winner : Option Winner
  statisticalSignificance : Option ℚ
  recommendedAction : Option String
  deriving DecidableEq

/-- `getTestResults` (abTestingService.ts lines 224-287).  Builds the
per-variant results, then performs the statistical analysis ONLY when
there are at least two variants and every variant has at least
`minSampleSize` impressions; in that case it also attaches confidence
intervals.  Otherwise winner/significance/recommendation stay absent. -/
def getTestResults (sqrtFn cdf probitFn : ℚ → ℚ) (test : AbTest) : AbTestResults :=
  let variantResults := test.variants.map mkVariantResult
  if 2 ≤ variantResults.length ∧
      variantResults.all (fun v => decide (test.minSampleSize ≤ v.impressions)) then
    let analysis := performStatisticalAnalysis sqrtFn cdf variantResults test.confidenceLevel
    { testId := test.id
      status := test.status
      variants := variantResults.map (fun v =>
        { v with confidence := some (calculateConfidenceInterval sqrtFn probitFn
            v.conversions v.impressions test.confidenceLevel) })
      winner := analysis.winner
      statisticalSignificance := some analysis.significance
      recommendedAction := some analysis.recommendation }
  else
    { testId := test.id
      status := test.status
      variants := variantResults
      winner := none
      statisticalSignificance := none
      recommendedAction := none }

end AbTesting

namespace Scoring

/-- A value of the dynamically-typed feature vector handled by
`applyAlgorithm` / `normalizeFeatureValue` (customScoringService.ts):
a number, a boolean, a string list (`techStack`), or `undefined`/`null`
(an absent feature, also covering the default branch of
`normalizeFeatureValue`). -/
inductive FeatureValue where
  | num (v : ℚ)
  | boolean (b : Bool)
  | strList (xs : List String)
  | undef
  deriving DecidableEq

/-- `normalizeFeatureValue` (customScoringService.ts lines 350-361):
numbers are divided by 100 and clamped to [0, 1]; booleans map to 0/1;
arrays map to `min(1, length / 10)`; anything else maps to 0. -/
def normalizeFeatureValue : FeatureValue → ℚ
  | .num v => min 1 (max 0 (v / 100))
  | .boolean b => if b then 1 else 0
  | .strList xs => min 1 ((xs.length : ℚ) / 10)
  | .undef => 0

/-- The JS truthiness test `weights[feature]` (line 302): the feature has
a weight entry and that weight is nonzero. -/
def featureWeight (weights : List (String × ℚ)) (f : String) : Option ℚ :=
  match List.lookup f weights with
  | some w => if w = 0 then none else some w
  | none => none

/-- One element pushed to `impacts` (lines 310-314): the feature name,
its rounded contribution, and the raw value. -/
structure Impact where
  feature : String
  impact : ℚ
  value : FeatureValue
  deriving DecidableEq

/-- The accumulation loop of `applyAlgorithm` (lines 301-316): over the
feature entries in order, skip entries that are absent or whose weight is
falsy; otherwise add `normalizedValue * weight` to `totalScore`, the
weight to `totalWeight`, and record the impact.  Returns
`(totalScore, totalWeight, impacts)`. -/
def scoringFold (weights : List (String × ℚ)) :
    List (String × FeatureValue) → ℚ × ℚ × List Impact
  | [] => (0, 0, [])
  | (f, v) :: rest =>
    let r := scoringFold weights rest
    if v = FeatureValue.undef then r
    else
      match featureWeight weights f with
      | some w =>
        let nv := normalizeFeatureValue v
        (nv * w + r.1, w + r.2.1, ⟨f, round2 (nv * w), v⟩ :: r.2.2)
      | none => r

/-- `Object.values(features).filter(v => v !== undefined && v !== null).length`
(line 335): the number of present features, weighted or not. -/
def presentCount (features : List (String × FeatureValue)) : ℕ :=
  (features.filter (fun p => decide (p.2 ≠ FeatureValue.undef))).length

/-- The confidence computation of `applyAlgorithm` (lines 335-336) with
JavaScript division semantics made explicit: `presentCount /
weightCount * 1.2` then `Math.min(1, ·)`.  When `weightCount = 0` the JS
division yields `NaN` (0/0, which survives `Math.min` — modelled as
`none`) or `Infinity` (n/0, which `Math.min` clamps to 1). -/
def jsConfidence (presentCnt weightCnt : ℕ) : Option ℚ :=
  if weightCnt = 0 then
    if presentCnt = 0 then none else some 1
  else some (min 1 ((presentCnt : ℚ) / (weightCnt : ℚ) * (6/5)))

/-- The stable descending sort on `|impact|` performed by
`impacts.sort((a, b) => Math.abs(b.impact) - Math.abs(a.impact))`
(line 332), as an insertion sort (stability and the comparator agree with
the JS engine sort; only determinism matters for the claims). -/
def insertImpact (a : Impact) : List Impact → List Impact
  | [] => [a]
  | b :: bs => if |b.impact| ≤ |a.impact| then a :: b :: bs else b :: insertImpact a bs

/-- Sort the impacts by decreasing absolute contribution. -/
def sortImpacts : List Impact → List Impact
  | [] => []
  | a :: as' => insertImpact a (sortImpacts as')

/-- The per-algorithm threshold map. -/
structure Thresholds where
  hot : ℚ
  warm : ℚ
  cold : ℚ
  deriving DecidableEq

/-- The hot/warm/cold bucket. -/
inductive Category where
  | hot
  | warm
  | cold
  deriving DecidableEq

/-- The categorization chain of `applyAlgorithm` (lines 322-329). -/
def categorize (thresholds : Thresholds) (finalScore : ℚ) : Category :=
  if thresholds.hot ≤ finalScore then .hot
  else if thresholds.warm ≤ finalScore then .warm
  else .cold

/-- The `ScoringResult` fields computed by `applyAlgorithm` (the
`reasoning` string and the echoed feature vector are omitted; `confidence`
is `none` exactly when the JS value is `NaN`). -/
structure ScoringResult where
  score : ℚ
  confidence : Option ℚ
  category : Category
  topFactors : List Impact
  deriving DecidableEq

/-- The pre-rounding `finalScore` of `applyAlgorithm` (line 319):
`totalWeight > 0 ? totalScore / totalWeight * 100 : 0`. -/
def finalScore (weights : List (String × ℚ)) (features : List (String × FeatureValue)) : ℚ :=
  let r := scoringFold weights features
  if 0 < r.2.1 then r.1 / r.2.1 * 100 else 0

/-- `applyAlgorithm` (customScoringService.ts lines 292-348). -/
def applyAlgorithm (weights : List (String × ℚ)) (thresholds : Thresholds)
    (features : List (String × FeatureValue)) : ScoringResult :=
  let r := scoringFold weights features
  let fs := finalScore weights features
  { score := round2 fs
    confidence := (jsConfidence (presentCount features) weights.length).map round2
    category := categorize thresholds fs
    topFactors := (sortImpacts r.2.2).take 5 }

/-- The features that contribute to the weighted sum: present and with a
truthy weight (the spec formula quantifies over exactly these). -/
def presentWeighted (weights : List (String × ℚ)) (features : List (String × FeatureValue)) :
    List (String × FeatureValue) :=
  features.filter (fun p =>
    decide (p.2 ≠ FeatureValue.undef) && (featureWeight weights p.1).isSome)

/-- Modelled from the spec (§4.5.3): the numerator
`Σ(normalizedFeature × weight)` over the present weighted features. -/
def specNumerator (weights : List (String × ℚ)) (features : List (String × FeatureValue)) : ℚ :=
  ((presentWeighted weights features).map
    (fun p => normalizeFeatureValue p.2 * ((featureWeight weights p.1).getD 0))).sum

/-- Modelled from the spec (§4.5.3): the denominator `Σ(weight for
present features)` over the present weighted features. -/
def specDenominator (weights : List (String × ℚ)) (features : List (String × FeatureValue)) : ℚ :=
  ((presentWeighted weights features).map
    (fun p => (featureWeight weights p.1).getD 0)).sum

end Scoring

namespace CampaignAnalytics

/-- A row of the `emailEvents` relation of a campaign execution. -/
structure EmailEvent where
  eventType : String
  deriving DecidableEq

/-- A campaign execution row as read by `calculateCampaignMetrics`
(linkedinService.ts): the status string, presence of the
opened/clicked/replied/converted timestamps, the optional revenue, and
the email events. -/
structure CampaignExecution where
  status : String
  openedAt : Bool
  clickedAt : Bool
  repliedAt : Bool
  convertedAt : Bool
  revenue : Option ℚ
  emailEvents : List EmailEvent
  deriving DecidableEq

/-- The metrics record produced by `calculateCampaignMetrics`. -/
structure CampaignMetrics where
  totalSent : ℕ
  totalDelivered : ℕ
  totalOpened : ℕ
  totalClicked : ℕ
  totalReplied : ℕ
  totalBounced : ℕ
  totalUnsubscribed : ℕ
  totalConverted : ℕ
  totalRevenue : ℚ
  deliveryRate : ℚ
  openRate : ℚ
  clickRate : ℚ
  replyRate : ℚ
  bounceRate : ℚ
  unsubscribeRate : ℚ
  conversionRate : ℚ
  averageRevenuePerLead : ℚ
  deriving DecidableEq

/-- The truthiness test `e.revenue && e.revenue > 0` of the converted
count. -/
def convertedRevenue (r : Option ℚ) : Bool :=
  match r with
  | some x => decide (0 < x)
  | none => false

/-- `calculateCampaignMetrics` (linkedinService.ts lines 549-579 of the
campaign analytics service): counts over the execution rows, then rates
with guarded division (`denominator > 0 ? ratio : 0`), each rounded to
two decimals.  `averageRevenuePerLead` is `totalRevenue / totalConverted`
WITHOUT the factor 100. -/
def calculateCampaignMetrics (executions : List CampaignExecution) : CampaignMetrics :=
  let totalSent := executions.length
  let totalDelivered := (executions.filter (fun e =>
    !(e.status == "FAILED") && !(e.status == "BOUNCED"))).length
  let totalOpened := (executions.filter (fun e => e.openedAt)).length
  let totalClicked := (executions.filter (fun e => e.clickedAt)).length
  let totalReplied := (executions.filter (fun e => e.repliedAt)).length
  let totalBounced := (executions.filter (fun e => e.status == "BOUNCED")).length
  let totalConverted := (executions.filter (fun e =>
    e.convertedAt && convertedRevenue e.revenue)).length
  let totalUnsubscribed := executions.foldl (fun (c : ℕ) e =>
    c + (e.emailEvents.filter (fun ev => ev.eventType == "UNSUBSCRIBED")).length) 0
  let totalRevenue := executions.foldl (fun (s : ℚ) e => s + e.revenue.getD 0) 0
  let deliveryRate := if 0 < totalSent then ((totalDelivered : ℚ) / totalSent) * 100 else 0
  let openRate := if 0 < totalDelivered then ((totalOpened : ℚ) / totalDelivered) * 100 else 0
  let clickRate := if 0 < totalOpened then ((totalClicked : ℚ) / totalOpened) * 100 else 0
  let replyRate := if 0 < totalDelivered then ((totalReplied : ℚ) / totalDelivered) * 100 else 0
  let bounceRate := if 0 < totalSent then ((totalBounced : ℚ) / totalSent) * 100 else 0
  let unsubscribeRate :=
    if 0 < totalDelivered then ((totalUnsubscribed : ℚ) / totalDelivered) * 100 else 0
  let conversionRate :=
    if 0 < totalDelivered then ((totalConverted : ℚ) / totalDelivered) * 100 else 0
  let averageRevenuePerLead := if 0 < totalConverted then totalRevenue / totalConverted else 0
  { totalSent := totalSent
    totalDelivered := totalDelivered
    totalOpened := totalOpened
    totalClicked := totalClicked
    totalReplied := totalReplied
    totalBounced := totalBounced
    totalUnsubscribed := totalUnsubscribed
    totalConverted := totalConverted
    totalRevenue := totalRevenue
    deliveryRate := round2 deliveryRate
    openRate := round2 openRate
    clickRate := round2 clickRate
    replyRate := round2 replyRate
    bounceRate := round2 bounceRate
    unsubscribeRate := round2 unsubscribeRate
    conversionRate := round2 conversionRate
    averageRevenuePerLead := round2 averageRevenuePerLead }

end CampaignAnalytics

/-! ## Helper lemmas -/

theorem jsRound_nonneg (x : ℚ) (h : 0 ≤ x) : 0 ≤ jsRound x := by
  unfold jsRound
  exact Int.floor_nonneg.mpr (by linarith)

theorem jsRound_le (x : ℚ) (n : ℤ) (h : x ≤ n) : jsRound x ≤ n := by
  have h2 : x + 1/2 < ((n + 1 : ℤ) : ℚ) := by push_cast; linarith
  have := Int.floor_lt.mpr h2
  unfold jsRound
  omega

theorem round2_nonneg (x : ℚ) (h : 0 ≤ x) : 0 ≤ round2 x := by
  unfold round2
  have h1 : 0 ≤ jsRound (x * 100) := jsRound_nonneg _ (by linarith)
  have h2 : (0 : ℚ) ≤ (jsRound (x * 100) : ℚ) := by exact_mod_cast h1
  linarith

theorem round2_le (x : ℚ) (n : ℤ) (h : x ≤ n) : round2 x ≤ n := by
  unfold round2
  have h1 : jsRound (x * 100) ≤ n * 100 := jsRound_le _ _ (by push_cast; linarith)
  have h2 : (jsRound (x * 100) : ℚ) ≤ ((n * 100 : ℤ) : ℚ) := by exact_mod_cast h1
  push_cast at h2
  linarith

theorem round2_zero : round2 0 = 0 := by
  norm_num [round2, jsRound]

namespace AbTesting

theorem selectLoop_eq_firstReaching (variants : List Variant) :
    ∀ random cumulative : ℚ,
      selectLoop variants random cumulative = firstReaching variants (random - cumulative) := by
  induction variants with
  | nil => intro r c; rfl
  | cons v rest ih =>
    intro r c
    simp only [selectLoop, firstReaching]
    by_cases h : r ≤ c + v.trafficPercent
    · rw [if_pos h, if_pos (by linarith)]
    · rw [if_neg h, if_neg (by intro hc; exact h (by linarith)), ih]
      congr 1
      ring

theorem selectVariant_isSome (variants : List Variant) (random : ℚ)
    (h : variants ≠ []) : (selectVariant variants random).isSome := by
  unfold selectVariant
  cases hsel : selectLoop variants random 0 with
  | some v => rfl
  | none =>
    cases variants with
    | nil => exact absurd rfl h
    | cons a rest => rfl

end AbTesting

/-- C5 (amended): for a running experiment with no prior assignment, the
uniform draw is compared against cumulative traffic percentages in variant
order and the first variant whose cumulative sum reaches or exceeds the
draw is selected; when the draw is above every cumulative sum, the FIRST
variant (the loop initialisation `test.variants[0]`) remains selected as
the catch-all — not the final variant as the original claim states. -/
theorem selectVariant_first_reaching (variants : List AbTesting.Variant) (random : ℚ) :
    AbTesting.selectVariant variants random =
      match AbTesting.firstReaching variants random with
      | some v => some v
      | none => variants.head? := by
  unfold AbTesting.selectVariant
  rw [AbTesting.selectLoop_eq_firstReaching variants random 0, sub_zero]

/-- C5 counterexample: variants A (30%) and B (69.99%) pass the creation
validation (the total 99.99 is within the 0.01 tolerance), and the draw
99.995 ∈ [0, 100) exceeds every cumulative sum; the code then selects the
FIRST variant A, while the claim says the FINAL variant (B) is the
catch-all. -/
theorem selectVariant_fallback_counterexample :
    AbTesting.validTrafficSplit
      [⟨"A", "A", 30, 0, 0, 0, 0⟩, ⟨"B", "B", 6999/100, 0, 0, 0, 0⟩] = true
    ∧ (0 : ℚ) ≤ 99995/1000 ∧ (99995 : ℚ)/1000 < 100
    ∧ AbTesting.selectVariant
        [⟨"A", "A", 30, 0, 0, 0, 0⟩, ⟨"B", "B", 6999/100, 0, 0, 0, 0⟩]
        (99995/1000) = some ⟨"A", "A", 30, 0, 0, 0, 0⟩
    ∧ List.getLast? [(⟨"A", "A", 30, 0, 0, 0, 0⟩ : AbTesting.Variant),
        ⟨"B", "B", 6999/100, 0, 0, 0, 0⟩] = some ⟨"B", "B", 6999/100, 0, 0, 0, 0⟩
    ∧ ("A" : String) ≠ "B" := by
  refine ⟨?_, by norm_num, by norm_num, ?_, rfl, by decide⟩
  · simp only [AbTesting.validTrafficSplit, List.map_cons, List.map_nil, List.sum_cons,
      List.sum_nil, decide_eq_true_eq]
    rw [abs_le]
    constructor <;> norm_num
  · simp only [AbTesting.selectVariant, AbTesting.selectLoop]
    rw [if_neg (by norm_num), if_neg (by norm_num)]
    rfl

/-- C6 (amended): `trackEvent` never fails on the value of a Revenue
event: an absent value leaves the revenue counter unchanged (the code
adds `value || 0`), a present value — including a negative one — is added
to the revenue counter as-is, and Impression/Click/Conversion events
increment their respective counters by exactly 1 (other counters
untouched); the ledger row is always appended. -/
theorem trackEvent_counter_updates (testId leadId : String) (variant : AbTesting.Variant)
    (value : Option ℚ) (x : ℚ) (results : List AbTesting.AbTestResultRec) :
    (AbTesting.trackEvent testId variant leadId "IMPRESSION" value results).2 =
      { variant with impressions := variant.impressions + 1 }
    ∧ (AbTesting.trackEvent testId variant leadId "CLICK" value results).2 =
      { variant with clicks := variant.clicks + 1 }
    ∧ (AbTesting.trackEvent testId variant leadId "CONVERSION" value results).2 =
      { variant with conversions := variant.conversions + 1 }
    ∧ (AbTesting.trackEvent testId variant leadId "REVENUE" (some x) results).2 =
      { variant with revenue := variant.revenue + x }
    ∧ (AbTesting.trackEvent testId variant leadId "REVENUE" none results).2 = variant
    ∧ (AbTesting.trackEvent testId variant leadId "REVENUE" none results).1 =
      results ++ [⟨testId, variant.id, leadId, "REVENUE", none⟩] := by
  refine ⟨?_, ?_, ?_, ?_, ?_, rfl⟩ <;> simp [AbTesting.trackEvent]

/-- C6 counterexample: a Revenue event with an absent value does NOT fail
with `MissingValueError` — it succeeds, appends the ledger row and leaves
the revenue counter unchanged; a negative value is not rejected either,
it is added to the counter (here 100 + (-5) = 95). -/
theorem trackEvent_missing_value_counterexample :
    (AbTesting.trackEvent "t" ⟨"V", "V", 100, 0, 0, 0, 100⟩ "l" "REVENUE" none []).2.revenue = 100
    ∧ (AbTesting.trackEvent "t" ⟨"V", "V", 100, 0, 0, 0, 100⟩ "l" "REVENUE"
        (some (-5)) []).2.revenue = 95
    ∧ (AbTesting.trackEvent "t" ⟨"V", "V", 100, 0, 0, 0, 100⟩ "l" "REVENUE" none []).1 =
      [⟨"t", "V", "l", "REVENUE", none⟩] := by
  refine ⟨?_, ?_, rfl⟩
  · simp [AbTesting.trackEvent]
  · simp [AbTesting.trackEvent]
    norm_num

/-- C1: assignment is idempotent per subject.  If an `ASSIGNED` ledger row
already exists for the (experiment, subject) pair, `assignVariant` returns
that row's variant and writes nothing; starting from a state with no such
row, the first call writes exactly one `ASSIGNED` row and a second call
returns the same variant with the ledger unchanged. -/
theorem assignVariant_idempotent (test : AbTesting.AbTest) (leadId : String)
    (r1 r2 : ℚ) (results : List AbTesting.AbTestResultRec)
    (hrun : test.status = "RUNNING") :
    (∀ rec, AbTesting.findFirstAssignment results test.id leadId = some rec →
      AbTesting.assignVariant test leadId r1 results = .ok (rec.variantId, results))
    ∧ (AbTesting.findFirstAssignment results test.id leadId = none →
      test.variants ≠ [] →
      ∃ vid results2,
        AbTesting.assignVariant test leadId r1 results = .ok (vid, results2)
        ∧ AbTesting.assignVariant test leadId r2 results2 = .ok (vid, results2)
        ∧ (results2.filter (AbTesting.isAssignedFor test.id leadId)).length = 1) := by
  have hn : ¬ (test.status ≠ "RUNNING") := by simp [hrun]
  constructor
  · intro rec hrec
    unfold AbTesting.assignVariant
    rw [if_neg hn, hrec]
  · intro hnone hvar
    have hsome := AbTesting.selectVariant_isSome test.variants r1 hvar
    obtain ⟨v, hv⟩ := Option.isSome_iff_exists.mp hsome
    refine ⟨v.id, results ++ [⟨test.id, v.id, leadId, "ASSIGNED", none⟩], ?_, ?_, ?_⟩
    · unfold AbTesting.assignVariant
      rw [if_neg hn, hnone, hv]
    · unfold AbTesting.assignVariant
      rw [if_neg hn]
      have hfind : AbTesting.findFirstAssignment
          (results ++ [⟨test.id, v.id, leadId, "ASSIGNED", none⟩]) test.id leadId =
          some ⟨test.id, v.id, leadId, "ASSIGNED", none⟩ := by
        unfold AbTesting.findFirstAssignment at hnone ⊢
        rw [List.find?_append, hnone]
        simp [AbTesting.isAssignedFor]
      rw [hfind]
    · have hempty : results.filter (AbTesting.isAssignedFor test.id leadId) = [] := by
        rw [List.filter_eq_nil_iff]
        intro a ha
        have hfa := List.find?_eq_none.mp hnone a ha
        simpa using hfa
      rw [List.filter_append, hempty]
      simp [AbTesting.isAssignedFor]

/-- C1 witness: a concrete running two-variant experiment with an empty
ledger; the first call (draw 40) assigns a variant, the second call
(draw 90) returns the same variant and leaves the single `ASSIGNED` row in
place. -/
theorem assignVariant_idempotent_witness :
    (⟨"t1", "RUNNING", [⟨"A", "A", 50, 0, 0, 0, 0⟩, ⟨"B", "B", 50, 0, 0, 0, 0⟩], 95,
        100⟩ : AbTesting.AbTest).status = "RUNNING"
    ∧ ∃ vid results2,
        AbTesting.assignVariant
          ⟨"t1", "RUNNING", [⟨"A", "A", 50, 0, 0, 0, 0⟩, ⟨"B", "B", 50, 0, 0, 0, 0⟩], 95, 100⟩
          "lead1" 40 [] = .ok (vid, results2)
        ∧ AbTesting.assignVariant
          ⟨"t1", "RUNNING", [⟨"A", "A", 50, 0, 0, 0, 0⟩, ⟨"B", "B", 50, 0, 0, 0, 0⟩], 95, 100⟩
          "lead1" 90 results2 = .ok (vid, results2)
        ∧ (results2.filter (AbTesting.isAssignedFor "t1" "lead1")).length = 1 :=
  ⟨rfl, (assignVariant_idempotent
    ⟨"t1", "RUNNING", [⟨"A", "A", 50, 0, 0, 0, 0⟩, ⟨"B", "B", 50, 0, 0, 0, 0⟩], 95, 100⟩
    "lead1" 40 90 [] rfl).2 rfl (by simp)⟩

/-- C9 (amended): every campaign rate uses guarded division — whenever its
denominator count is 0 the rate is 0 (the computation is total, never NaN
or an exception), and a campaign with 0 sent executions yields all eight
derived metrics equal to 0.  Amendment: `averageRevenuePerLead` is
`revenue / converted` rounded to 2 decimals but WITHOUT the ×100 factor
the claim ascribes to every listed quantity. -/
theorem calculateCampaignMetrics_guarded
    (executions : List CampaignAnalytics.CampaignExecution) :
    ((CampaignAnalytics.calculateCampaignMetrics executions).totalSent = 0 →
      (CampaignAnalytics.calculateCampaignMetrics executions).deliveryRate = 0
      ∧ (CampaignAnalytics.calculateCampaignMetrics executions).bounceRate = 0)
    ∧ ((CampaignAnalytics.calculateCampaignMetrics executions).totalDelivered = 0 →
      (CampaignAnalytics.calculateCampaignMetrics executions).openRate = 0
      ∧ (CampaignAnalytics.calculateCampaignMetrics executions).replyRate = 0
      ∧ (CampaignAnalytics.calculateCampaignMetrics executions).unsubscribeRate = 0
      ∧ (CampaignAnalytics.calculateCampaignMetrics executions).conversionRate = 0)
    ∧ ((CampaignAnalytics.calculateCampaignMetrics executions).totalOpened = 0 →
      (CampaignAnalytics.calculateCampaignMetrics executions).clickRate = 0)
    ∧ ((CampaignAnalytics.calculateCampaignMetrics executions).totalConverted = 0 →
      (CampaignAnalytics.calculateCampaignMetrics executions).averageRevenuePerLead = 0)
    ∧ (executions = [] →
      (CampaignAnalytics.calculateCampaignMetrics executions).deliveryRate = 0
      ∧ (CampaignAnalytics.calculateCampaignMetrics executions).openRate = 0
      ∧ (CampaignAnalytics.calculateCampaignMetrics executions).clickRate = 0
      ∧ (CampaignAnalytics.calculateCampaignMetrics executions).replyRate = 0
      ∧ (CampaignAnalytics.calculateCampaignMetrics executions).bounceRate = 0
      ∧ (CampaignAnalytics.calculateCampaignMetrics executions).unsubscribeRate = 0
      ∧ (CampaignAnalytics.calculateCampaignMetrics executions).conversionRate = 0
      ∧ (CampaignAnalytics.calculateCampaignMetrics executions).averageRevenuePerLead = 0) := by
  refine ⟨?_, ?_, ?_, ?_, ?_⟩
  · intro h
    simp only [CampaignAnalytics.calculateCampaignMetrics] at h ⊢
    rw [h]
    norm_num [round2_zero]
  · intro h
    simp only [CampaignAnalytics.calculateCampaignMetrics] at h ⊢
    rw [h]
    norm_num [round2_zero]
  · intro h
    simp only [CampaignAnalytics.calculateCampaignMetrics] at h ⊢
    rw [h]
    norm_num [round2_zero]
  · intro h
    simp only [CampaignAnalytics.calculateCampaignMetrics] at h ⊢
    rw [h]
    norm_num [round2_zero]
  · intro h
    subst h
    simp [CampaignAnalytics.calculateCampaignMetrics, round2_zero]

/-- C9 witness: a campaign with zero sent executions has all eight rates
equal to 0. -/
theorem calculateCampaignMetrics_guarded_witness :
    (CampaignAnalytics.calculateCampaignMetrics []).deliveryRate = 0
    ∧ (CampaignAnalytics.calculateCampaignMetrics []).openRate = 0
    ∧ (CampaignAnalytics.calculateCampaignMetrics []).clickRate = 0
    ∧ (CampaignAnalytics.calculateCampaignMetrics []).replyRate = 0
    ∧ (CampaignAnalytics.calculateCampaignMetrics []).bounceRate = 0
    ∧ (CampaignAnalytics.calculateCampaignMetrics []).unsubscribeRate = 0
    ∧ (CampaignAnalytics.calculateCampaignMetrics []).conversionRate = 0
    ∧ (CampaignAnalytics.calculateCampaignMetrics []).averageRevenuePerLead = 0 :=
  (calculateCampaignMetrics_guarded []).2.2.2.2 rfl

/-- C9 counterexample to the ×100 clause: one delivered execution converted
with revenue 50 gives `averageRevenuePerLead = 50` (revenue/converted,
rounded), while the claim's formula `revenue/converted × 100` would give
5000. -/
theorem campaignMetrics_avgRevenue_counterexample :
    (CampaignAnalytics.calculateCampaignMetrics
      [⟨"SENT", false, false, false, true, some 50, []⟩]).averageRevenuePerLead = 50
    ∧ round2 ((CampaignAnalytics.calculateCampaignMetrics
        [⟨"SENT", false, false, false, true, some 50, []⟩]).totalRevenue /
        ((CampaignAnalytics.calculateCampaignMetrics
          [⟨"SENT", false, false, false, true, some 50, []⟩]).totalConverted : ℚ) * 100) = 5000
    ∧ (50 : ℚ) ≠ 5000 := by
  refine ⟨?_, ?_, by norm_num⟩
  · simp [CampaignAnalytics.calculateCampaignMetrics, CampaignAnalytics.convertedRevenue]
    norm_num [round2, jsRound]
  · simp [CampaignAnalytics.calculateCampaignMetrics, CampaignAnalytics.convertedRevenue]
    norm_num [round2, jsRound]

namespace AbTesting

theorem performStatisticalAnalysis_ne_two (sqrtFn cdf : ℚ → ℚ)
    (vs : List VariantResult) (level : ℚ) (h : vs.length ≠ 2) :
    performStatisticalAnalysis sqrtFn cdf vs level =
      ⟨0, none, "Statistical analysis only supported for 2-variant tests"⟩ := by
  match vs with
  | [] => rfl
  | [a] => rfl
  | [a, b] => exact absurd rfl h
  | a :: b :: c :: rest => rfl

end AbTesting

/-- C4 (amended): when at least one variant of a two-variant experiment has
fewer impressions than `minSampleSize`, `getTestResults` does not fail but
returns a report whose `winner`, `statisticalSignificance` and
`recommendedAction` fields are all ABSENT — the analysis is skipped
entirely; no `significance = 0` value and no "continue test"
recommendation are emitted, contrary to the original claim. -/
theorem getTestResults_insufficient_sample (sqrtFn cdf probitFn : ℚ → ℚ)
    (test : AbTesting.AbTest)
    (hex : ∃ v ∈ test.variants, v.impressions < test.minSampleSize) :
    (AbTesting.getTestResults sqrtFn cdf probitFn test).winner = none
    ∧ (AbTesting.getTestResults sqrtFn cdf probitFn test).statisticalSignificance = none
    ∧ (AbTesting.getTestResults sqrtFn cdf probitFn test).recommendedAction = none := by
  obtain ⟨v, hv, hlt⟩ := hex
  have hgate : ¬ (2 ≤ (test.variants.map AbTesting.mkVariantResult).length ∧
      (test.variants.map AbTesting.mkVariantResult).all
        (fun w => decide (test.minSampleSize ≤ w.impressions)) = true) := by
    rintro ⟨-, hall⟩
    have hmem : AbTesting.mkVariantResult v ∈ test.variants.map AbTesting.mkVariantResult :=
      List.mem_map_of_mem _ hv
    have hle := List.all_eq_true.mp hall _ hmem
    simp only [decide_eq_true_eq] at hle
    have himp : (AbTesting.mkVariantResult v).impressions = v.impressions := rfl
    rw [himp] at hle
    omega
  simp only [AbTesting.getTestResults]
  rw [if_neg hgate]
  exact ⟨rfl, rfl, rfl⟩

/-- C4 witness: variant A has 10 < 100 impressions, so the report of this
concrete two-variant experiment has no winner, no significance and no
recommendation. -/
theorem getTestResults_insufficient_sample_witness :
    (∃ v ∈ [(⟨"A", "A", 50, 10, 0, 9, 0⟩ : AbTesting.Variant),
        ⟨"B", "B", 50, 1000, 0, 1, 0⟩], v.impressions < 100)
    ∧ (AbTesting.getTestResults (fun x => x) (fun x => x) (fun x => x)
        ⟨"t4", "RUNNING", [⟨"A", "A", 50, 10, 0, 9, 0⟩, ⟨"B", "B", 50, 1000, 0, 1, 0⟩],
          95, 100⟩).winner = none
    ∧ (AbTesting.getTestResults (fun x => x) (fun x => x) (fun x => x)
        ⟨"t4", "RUNNING", [⟨"A", "A", 50, 10, 0, 9, 0⟩, ⟨"B", "B", 50, 1000, 0, 1, 0⟩],
          95, 100⟩).statisticalSignificance = none
    ∧ (AbTesting.getTestResults (fun x => x) (fun x => x) (fun x => x)
        ⟨"t4", "RUNNING", [⟨"A", "A", 50, 10, 0, 9, 0⟩, ⟨"B", "B", 50, 1000, 0, 1, 0⟩],
          95, 100⟩).recommendedAction = none :=
  ⟨⟨⟨"A", "A", 50, 10, 0, 9, 0⟩, by simp, by norm_num⟩,
    getTestResults_insufficient_sample (fun x => x) (fun x => x) (fun x => x)
      ⟨"t4", "RUNNING", [⟨"A", "A", 50, 10, 0, 9, 0⟩, ⟨"B", "B", 50, 1000, 0, 1, 0⟩], 95, 100⟩
      ⟨⟨"A", "A", 50, 10, 0, 9, 0⟩, by simp, by norm_num⟩⟩

/-- C4 counterexample to the original claim: with variant A at 10 < 100
impressions (and a huge observed rate difference, A at 90%, B at 0.1%),
the returned report carries NO `statisticalSignificance` (in particular
not `some 0`) and NO recommendation — the claim's "result carrying
significance = 0 and a continue-test recommendation" does not match the
code, which leaves both fields absent. -/
theorem getTestResults_insufficient_sample_counterexample :
    (AbTesting.getTestResults (fun x => x) (fun x => x) (fun x => x)
      ⟨"t4", "RUNNING", [⟨"A", "A", 50, 10, 0, 9, 0⟩, ⟨"B", "B", 50, 1000, 0, 1, 0⟩],
        95, 100⟩).statisticalSignificance = none
    ∧ (AbTesting.getTestResults (fun x => x) (fun x => x) (fun x => x)
      ⟨"t4", "RUNNING", [⟨"A", "A", 50, 10, 0, 9, 0⟩, ⟨"B", "B", 50, 1000, 0, 1, 0⟩],
        95, 100⟩).recommendedAction = none
    ∧ (AbTesting.getTestResults (fun x => x) (fun x => x) (fun x => x)
      ⟨"t4", "RUNNING", [⟨"A", "A", 50, 10, 0, 9, 0⟩, ⟨"B", "B", 50, 1000, 0, 1, 0⟩],
        95, 100⟩).winner = none := by
  refine ⟨?_, ?_, ?_⟩ <;>
  · simp only [AbTesting.getTestResults]
    rw [if_neg (by simp [AbTesting.mkVariantResult])]

/-- C7 (amended): `getTestResults` never fails on the variant count.  With
any count other than two the report carries no winner; when more than two
variants all pass the sample-size gate, the analysis returns significance
`some 0` and the recommendation "Statistical analysis only supported for
2-variant tests" (no exception is raised); with fewer than two variants
the analysis is skipped and significance/recommendation stay absent. -/
theorem getTestResults_variant_count (sqrtFn cdf probitFn : ℚ → ℚ)
    (test : AbTesting.AbTest) (hne : test.variants.length ≠ 2) :
    (AbTesting.getTestResults sqrtFn cdf probitFn test).winner = none
    ∧ (2 < test.variants.length →
      (∀ v ∈ test.variants, test.minSampleSize ≤ v.impressions) →
      (AbTesting.getTestResults sqrtFn cdf probitFn test).statisticalSignificance = some 0
      ∧ (AbTesting.getTestResults sqrtFn cdf probitFn test).recommendedAction =
        some "Statistical analysis only supported for 2-variant tests")
    ∧ (test.variants.length < 2 →
      (AbTesting.getTestResults sqrtFn cdf probitFn test).statisticalSignificance = none
      ∧ (AbTesting.getTestResults sqrtFn cdf probitFn test).recommendedAction = none) := by
  have hmaplen : (test.variants.map AbTesting.mkVariantResult).length = test.variants.length :=
    List.length_map _ _
  by_cases hgate : (2 ≤ (test.variants.map AbTesting.mkVariantResult).length ∧
      (test.variants.map AbTesting.mkVariantResult).all
        (fun w => decide (test.minSampleSize ≤ w.impressions)) = true)
  · have hanalysis := AbTesting.performStatisticalAnalysis_ne_two sqrtFn cdf
      (test.variants.map AbTesting.mkVariantResult) test.confidenceLevel
      (by rw [hmaplen]; exact hne)
    simp only [AbTesting.getTestResults]
    rw [if_pos hgate, hanalysis]
    refine ⟨rfl, fun _ _ => ⟨rfl, rfl⟩, fun hlt2 => ?_⟩
    have := hgate.1
    rw [hmaplen] at this
    omega
  · simp only [AbTesting.getTestResults]
    rw [if_neg hgate]
    refine ⟨rfl, fun h2 hall => ?_, fun _ => ⟨rfl, rfl⟩⟩
    exfalso
    apply hgate
    constructor
    · rw [hmaplen]; omega
    · rw [List.all_eq_true]
      intro w hw
      obtain ⟨v, hv, rfl⟩ := List.mem_map.mp hw
      have h := hall v hv
      simpa [AbTesting.mkVariantResult] using h

/-- C7 witness: a three-variant experiment whose variants all have at
least the minimum 100 impressions; the analysis yields significance 0 and
the unsupported-variant-count recommendation. -/
theorem getTestResults_variant_count_witness :
    (AbTesting.getTestResults (fun x => x) (fun x => x) (fun x => x)
      ⟨"t7", "RUNNING", [⟨"A", "A", 34, 200, 0, 10, 0⟩, ⟨"B", "B", 33, 200, 0, 20, 0⟩,
        ⟨"C", "C", 33, 200, 0, 30, 0⟩], 95, 100⟩).statisticalSignificance = some 0
    ∧ (AbTesting.getTestResults (fun x => x) (fun x => x) (fun x => x)
      ⟨"t7", "RUNNING", [⟨"A", "A", 34, 200, 0, 10, 0⟩, ⟨"B", "B", 33, 200, 0, 20, 0⟩,
        ⟨"C", "C", 33, 200, 0, 30, 0⟩], 95, 100⟩).recommendedAction =
      some "Statistical analysis only supported for 2-variant tests" :=
  (getTestResults_variant_count (fun x => x) (fun x => x) (fun x => x)
    ⟨"t7", "RUNNING", [⟨"A", "A", 34, 200, 0, 10, 0⟩, ⟨"B", "B", 33, 200, 0, 20, 0⟩,
      ⟨"C", "C", 33, 200, 0, 30, 0⟩], 95, 100⟩ (by norm_num)).2.1 (by norm_num)
    (by
      intro v hv
      simp only [List.mem_cons, List.not_mem_nil, or_false] at hv
      rcases hv with rfl | rfl | rfl <;> norm_num)

/-- C7 counterexample to the original claim: the same three-variant
experiment does NOT fail with `UnsupportedVariantCount` — evaluation
produces a test result whose significance is 0 and whose recommendation
is an explanatory message, with no winner. -/
theorem getTestResults_variant_count_counterexample :
    (AbTesting.getTestResults (fun x => x) (fun x => x) (fun x => x)
      ⟨"t7", "RUNNING", [⟨"A", "A", 34, 200, 0, 10, 0⟩, ⟨"B", "B", 33, 200, 0, 20, 0⟩,
        ⟨"C", "C", 33, 200, 0, 30, 0⟩], 95, 100⟩).statisticalSignificance = some 0
    ∧ (AbTesting.getTestResults (fun x => x) (fun x => x) (fun x => x)
      ⟨"t7", "RUNNING", [⟨"A", "A", 34, 200, 0, 10, 0⟩, ⟨"B", "B", 33, 200, 0, 20, 0⟩,
        ⟨"C", "C", 33, 200, 0, 30, 0⟩], 95, 100⟩).recommendedAction =
      some "Statistical analysis only supported for 2-variant tests"
    ∧ (AbTesting.getTestResults (fun x => x) (fun x => x) (fun x => x)
      ⟨"t7", "RUNNING", [⟨"A", "A", 34, 200, 0, 10, 0⟩, ⟨"B", "B", 33, 200, 0, 20, 0⟩,
        ⟨"C", "C", 33, 200, 0, 30, 0⟩], 95, 100⟩).winner = none := by
  refine ⟨?_, ?_, ?_⟩ <;>
  · simp only [AbTesting.getTestResults]
    rw [if_pos (by simp [AbTesting.mkVariantResult])]
    rfl

namespace AbTesting

theorem rawSignificance_of_tie (sqrtFn cdf : ℚ → ℚ) (control treatment : VariantResult)
    (heq : conversionFraction control = conversionFraction treatment)
    (hcdf : cdf 0 = 1/2) :
    rawSignificance sqrtFn cdf control treatment = 0 := by
  simp only [rawSignificance]
  rw [heq, sub_self, abs_zero, zero_div, abs_zero, hcdf]
  norm_num

end AbTesting

/-- C2 (amended): for a two-variant analysis (with `sqrtFn`/`cdf` standing
for `Math.sqrt` and the standard-normal CDF, of which only `cdf 0 = 1/2`
is used, and a confidence level of at least 80), a winner is declared iff
the raw significance reaches the confidence level; the declared winner is
the variant with the strictly higher conversion rate; the reported
improvement is `|rateTreatment - rateControl| / rateControl × 100` — the
baseline is always the CONTROL (first) variant, not the lower-rate
variant as the original claim states; significance in [80, level) yields
the promising-but-needs-more-data recommendation and significance below
80 yields the continue-test recommendation. -/
theorem performStatisticalAnalysis_winner_spec (sqrtFn cdf : ℚ → ℚ)
    (control treatment : AbTesting.VariantResult) (confidenceLevel : ℚ)
    (hcdf : cdf 0 = 1/2) (hlevel : 80 ≤ confidenceLevel) :
    ((AbTesting.performStatisticalAnalysis sqrtFn cdf [control, treatment]
        confidenceLevel).winner.isSome
      ↔ confidenceLevel ≤ AbTesting.rawSignificance sqrtFn cdf control treatment)
    ∧ (∀ w, (AbTesting.performStatisticalAnalysis sqrtFn cdf [control, treatment]
        confidenceLevel).winner = some w →
      ((AbTesting.conversionFraction control < AbTesting.conversionFraction treatment
          ∧ w.variantId = treatment.id ∧ w.variantName = treatment.name)
        ∨ (AbTesting.conversionFraction treatment < AbTesting.conversionFraction control
          ∧ w.variantId = control.id ∧ w.variantName = control.name))
      ∧ w.improvement = round2 (|(AbTesting.conversionFraction treatment -
          AbTesting.conversionFraction control) /
          AbTesting.conversionFraction control| * 100))
    ∧ (80 ≤ AbTesting.rawSignificance sqrtFn cdf control treatment →
      AbTesting.rawSignificance sqrtFn cdf control treatment < confidenceLevel →
      (AbTesting.performStatisticalAnalysis sqrtFn cdf [control, treatment]
        confidenceLevel).recommendation =
        "Test showing promising results but needs more data")
    ∧ (AbTesting.rawSignificance sqrtFn cdf control treatment < 80 →
      (AbTesting.performStatisticalAnalysis sqrtFn cdf [control, treatment]
        confidenceLevel).recommendation =
        "Continue test - not enough data for conclusive results") := by
  simp only [AbTesting.performStatisticalAnalysis]
  by_cases h1 : confidenceLevel ≤ AbTesting.rawSignificance sqrtFn cdf control treatment
  · rw [if_pos h1]
    refine ⟨by simp [h1], ?_, ?_, ?_⟩
    · intro w hw
      have hne : AbTesting.conversionFraction control ≠
          AbTesting.conversionFraction treatment := by
        intro heq
        have h0 := AbTesting.rawSignificance_of_tie sqrtFn cdf control treatment heq hcdf
        rw [h0] at h1
        linarith
      injection hw with hw2
      subst hw2
      rcases lt_or_gt_of_ne hne with hlt | hgt
      · rw [if_pos hlt]
        exact ⟨Or.inl ⟨hlt, rfl, rfl⟩, rfl⟩
      · rw [if_neg (not_lt.mpr (le_of_lt hgt))]
        exact ⟨Or.inr ⟨hgt, rfl, rfl⟩, rfl⟩
    · intro _ hlt2
      exact absurd h1 (not_le.mpr hlt2)
    · intro hlt80
      linarith
  · rw [if_neg h1]
    by_cases h2 : 80 ≤ AbTesting.rawSignificance sqrtFn cdf control treatment
    · rw [if_pos h2]
      refine ⟨by simp [h1], ?_, fun _ _ => rfl, fun h3 => ?_⟩
      · intro w hw
        exact absurd hw (by simp)
      · linarith
    · rw [if_neg h2]
      refine ⟨by simp [h1], ?_, fun h80 _ => absurd h80 h2, fun _ => rfl⟩
      intro w hw
      exact absurd hw (by simp)

/-- C2 witness: a concrete instantiation (control 200/1000, treatment
100/1000, level 95, `cdf` the constant 1/2 so that `cdf 0 = 1/2` holds
definitionally) of the winner-iff-significance clause. -/
theorem performStatisticalAnalysis_winner_spec_witness :
    ((fun _ => (1:ℚ)/2) (0:ℚ) = 1/2)
    ∧ ((AbTesting.performStatisticalAnalysis (fun _ => 1) (fun _ => (1:ℚ)/2)
        [AbTesting.mkVariantResult ⟨"A", "A", 50, 1000, 0, 200, 0⟩,
          AbTesting.mkVariantResult ⟨"B", "B", 50, 1000, 0, 100, 0⟩] 95).winner.isSome
      ↔ (95:ℚ) ≤ AbTesting.rawSignificance (fun _ => 1) (fun _ => (1:ℚ)/2)
          (AbTesting.mkVariantResult ⟨"A", "A", 50, 1000, 0, 200, 0⟩)
          (AbTesting.mkVariantResult ⟨"B", "B", 50, 1000, 0, 100, 0⟩)) :=
  ⟨rfl, (performStatisticalAnalysis_winner_spec (fun _ => 1) (fun _ => (1:ℚ)/2)
    (AbTesting.mkVariantResult ⟨"A", "A", 50, 1000, 0, 200, 0⟩)
    (AbTesting.mkVariantResult ⟨"B", "B", 50, 1000, 0, 100, 0⟩) 95 rfl (by norm_num)).1⟩

/-- C2 counterexample to the lower-rate-baseline clause: control A
converts at 20% (200/1000), treatment B at 10% (100/1000); with the CDF
saturated at 1 (as the real table-based CDF is at the huge z-score of
this data) the significance is 100 ≥ 95, so A is declared winner — but
the reported improvement is 50 (baseline = control A, rate 0.2), while
relative to the lower-rate variant B (rate 0.1) the claim's formula gives
100. -/
theorem improvement_baseline_counterexample :
    (AbTesting.performStatisticalAnalysis (fun _ => 1) (fun _ => 1)
      [AbTesting.mkVariantResult ⟨"A", "A", 50, 1000, 0, 200, 0⟩,
        AbTesting.mkVariantResult ⟨"B", "B", 50, 1000, 0, 100, 0⟩] 95).winner =
      some ⟨"A", "A", 50⟩
    ∧ round2 (|(100:ℚ)/1000 - 200/1000| / (100/1000) * 100) = 100
    ∧ (50:ℚ) ≠ 100 := by
  have hcfA : AbTesting.conversionFraction
      (AbTesting.mkVariantResult ⟨"A", "A", 50, 1000, 0, 200, 0⟩) = 1/5 := by
    simp only [AbTesting.conversionFraction, AbTesting.mkVariantResult]
    norm_num
  have hcfB : AbTesting.conversionFraction
      (AbTesting.mkVariantResult ⟨"B", "B", 50, 1000, 0, 100, 0⟩) = 1/10 := by
    simp only [AbTesting.conversionFraction, AbTesting.mkVariantResult]
    norm_num
  have hsig : AbTesting.rawSignificance (fun _ => 1) (fun _ => 1)
      (AbTesting.mkVariantResult ⟨"A", "A", 50, 1000, 0, 200, 0⟩)
      (AbTesting.mkVariantResult ⟨"B", "B", 50, 1000, 0, 100, 0⟩) = 100 := by
    simp only [AbTesting.rawSignificance]
    norm_num
  refine ⟨?_, ?_, by norm_num⟩
  · simp only [AbTesting.performStatisticalAnalysis]
    rw [if_pos (by rw [hsig]; norm_num), if_neg (by rw [hcfA, hcfB]; norm_num)]
    rw [hcfA, hcfB]
    have habs : |((1:ℚ)/10 - 1/5) / (1/5)| = 1/2 := by
      rw [abs_of_nonpos (by norm_num)]
      norm_num
    rw [habs]
    norm_num [round2, jsRound]
    exact ⟨rfl, rfl⟩
  · have habs2 : |(100:ℚ)/1000 - 200/1000| = 1/10 := by
      rw [abs_of_nonpos (by norm_num)]
      norm_num
    rw [habs2]
    norm_num [round2, jsRound]

namespace Scoring

theorem normalizeFeatureValue_mem_Icc (v : FeatureValue) :
    0 ≤ normalizeFeatureValue v ∧ normalizeFeatureValue v ≤ 1 := by
  cases v with
  | num x =>
    simp only [normalizeFeatureValue]
    exact ⟨le_min (by norm_num) (le_max_left 0 _), min_le_left _ _⟩
  | boolean b => cases b <;> norm_num [normalizeFeatureValue]
  | strList xs =>
    simp only [normalizeFeatureValue]
    exact ⟨le_min (by norm_num) (by positivity), min_le_left _ _⟩
  | undef => norm_num [normalizeFeatureValue]

theorem featureWeight_mem (weights : List (String × ℚ)) (f : String) (w : ℚ)
    (h : featureWeight weights f = some w) : (f, w) ∈ weights := by
  unfold featureWeight at h
  cases hl : List.lookup f weights with
  | none => rw [hl] at h; exact absurd h (by simp)
  | some b =>
    rw [hl] at h
    by_cases hb : b = 0
    · subst hb
      simp at h
    · simp only [hb, if_false, Option.some.injEq] at h
      subst h
      obtain ⟨l1, l2, rfl, -⟩ := List.lookup_eq_some_iff.mp hl
      simp

theorem scoringFold_eq_spec (weights : List (String × ℚ))
    (features : List (String × FeatureValue)) :
    (scoringFold weights features).1 = specNumerator weights features
    ∧ (scoringFold weights features).2.1 = specDenominator weights features := by
  induction features with
  | nil => exact ⟨rfl, rfl⟩
  | cons p rest ih =>
    obtain ⟨f, v⟩ := p
    by_cases hv : v = FeatureValue.undef
    · subst hv
      have h1 : scoringFold weights ((f, FeatureValue.undef) :: rest) =
          scoringFold weights rest := by
        simp [scoringFold]
      have h2 : presentWeighted weights ((f, FeatureValue.undef) :: rest) =
          presentWeighted weights rest := by
        simp [presentWeighted]
      rw [h1]
      unfold specNumerator specDenominator
      rw [h2]
      exact ih
    · cases hw : featureWeight weights f with
      | none =>
        have h1 : scoringFold weights ((f, v) :: rest) = scoringFold weights rest := by
          simp [scoringFold, hv, hw]
        have h2 : presentWeighted weights ((f, v) :: rest) = presentWeighted weights rest := by
          simp [presentWeighted, hw]
        rw [h1]
        unfold specNumerator specDenominator
        rw [h2]
        exact ih
      | some w =>
        have h1 : scoringFold weights ((f, v) :: rest) =
            (normalizeFeatureValue v * w + (scoringFold weights rest).1,
              w + (scoringFold weights rest).2.1,
              ⟨f, round2 (normalizeFeatureValue v * w), v⟩ :: (scoringFold weights rest).2.2) := by
          simp [scoringFold, hv, hw]
        have h2 : presentWeighted weights ((f, v) :: rest) =
            (f, v) :: presentWeighted weights rest := by
          simp [presentWeighted, hv, hw]
        rw [h1]
        unfold specNumerator specDenominator
        rw [h2]
        simp only [List.map_cons, List.sum_cons, hw, Option.getD_some]
        exact ⟨by rw [ih.1]; rfl, by rw [ih.2]; rfl⟩

theorem scoringFold_bounds (weights : List (String × ℚ))
    (hw : ∀ p ∈ weights, 0 ≤ p.2) (features : List (String × FeatureValue)) :
    0 ≤ (scoringFold weights features).1
    ∧ (scoringFold weights features).1 ≤ (scoringFold weights features).2.1 := by
  induction features with
  | nil => norm_num [scoringFold]
  | cons p rest ih =>
    obtain ⟨f, v⟩ := p
    by_cases hv : v = FeatureValue.undef
    · subst hv
      simpa [scoringFold] using ih
    · cases hfw : featureWeight weights f with
      | none => simpa [scoringFold, hv, hfw] using ih
      | some w =>
        have hw0 : 0 ≤ w := hw _ (featureWeight_mem weights f w hfw)
        have hn := normalizeFeatureValue_mem_Icc v
        have h1 : scoringFold weights ((f, v) :: rest) =
            (normalizeFeatureValue v * w + (scoringFold weights rest).1,
              w + (scoringFold weights rest).2.1,
              ⟨f, round2 (normalizeFeatureValue v * w), v⟩ :: (scoringFold weights rest).2.2) := by
          simp [scoringFold, hv, hfw]
        rw [h1]
        constructor
        · have hmul : 0 ≤ normalizeFeatureValue v * w := mul_nonneg hn.1 hw0
          have := ih.1
          simp only
          linarith
        · have hmul : normalizeFeatureValue v * w ≤ w := by nlinarith [hn.1, hn.2]
          have := ih.2
          simp only
          linarith

end Scoring

/-- C3 (amended): the weighted score equals
`Σ(normalizedFeature × weight) / Σ(weight of present weighted features) × 100`
(rounded to 2 decimals), with absent features excluded from both sums;
when zero weighted features are present the score is 0 (no division by
zero); the confidence is 0 when NO feature at all is present (and at
least one weight is configured) — a present feature WITHOUT a weight
still raises the confidence, contrary to the original claim. -/
theorem applyAlgorithm_weighted_score (weights : List (String × ℚ))
    (thresholds : Scoring.Thresholds) (features : List (String × Scoring.FeatureValue)) :
    (0 < Scoring.specDenominator weights features →
      (Scoring.applyAlgorithm weights thresholds features).score =
        round2 (Scoring.specNumerator weights features /
          Scoring.specDenominator weights features * 100))
    ∧ (Scoring.presentWeighted weights features = [] →
      (Scoring.applyAlgorithm weights thresholds features).score = 0)
    ∧ (Scoring.presentCount features = 0 → weights ≠ [] →
      (Scoring.applyAlgorithm weights thresholds features).confidence = some 0) := by
  obtain ⟨hnum, hden⟩ := Scoring.scoringFold_eq_spec weights features
  have hsc : (Scoring.applyAlgorithm weights thresholds features).score =
      round2 (Scoring.finalScore weights features) := rfl
  refine ⟨?_, ?_, ?_⟩
  · intro hpos
    rw [hsc]
    simp only [Scoring.finalScore]
    rw [hnum, hden, if_pos hpos]
  · intro hpw
    have hden0 : Scoring.specDenominator weights features = 0 := by
      unfold Scoring.specDenominator
      rw [hpw]
      rfl
    rw [hsc]
    simp only [Scoring.finalScore]
    rw [hden, hden0]
    norm_num [round2_zero]
  · intro hpc hwne
    have hcf : (Scoring.applyAlgorithm weights thresholds features).confidence =
        (Scoring.jsConfidence (Scoring.presentCount features) weights.length).map round2 := rfl
    have hlen : weights.length ≠ 0 := fun h => hwne (List.length_eq_zero.mp h)
    rw [hcf, hpc]
    unfold Scoring.jsConfidence
    rw [if_neg hlen]
    simp only [Nat.cast_zero, zero_div, zero_mul]
    rw [min_eq_right (by norm_num)]
    simp [round2_zero]

/-- C3 witness: a single weighted feature present at value 50 scores
`round2(0.5 × 1 / 1 × 100) = 50` by the spec formula. -/
theorem applyAlgorithm_weighted_score_witness :
    (0:ℚ) < Scoring.specDenominator [("companySize", (1:ℚ))]
      [("companySize", Scoring.FeatureValue.num 50)]
    ∧ (Scoring.applyAlgorithm [("companySize", (1:ℚ))] ⟨80, 50, 0⟩
        [("companySize", Scoring.FeatureValue.num 50)]).score =
      round2 (Scoring.specNumerator [("companySize", (1:ℚ))]
          [("companySize", Scoring.FeatureValue.num 50)] /
        Scoring.specDenominator [("companySize", (1:ℚ))]
          [("companySize", Scoring.FeatureValue.num 50)] * 100) :=
  ⟨by simp [Scoring.specDenominator, Scoring.presentWeighted, Scoring.featureWeight, List.lookup],
    (applyAlgorithm_weighted_score [("companySize", (1:ℚ))] ⟨80, 50, 0⟩
      [("companySize", Scoring.FeatureValue.num 50)]).1
      (by simp [Scoring.specDenominator, Scoring.presentWeighted, Scoring.featureWeight,
        List.lookup])⟩

/-- C3 counterexample to the confidence clause: with one configured weight
(`industryScore`) and one present but UNWEIGHTED feature (`companySize`),
zero weighted features are present, so the score is 0 as claimed — but
the confidence is `min(1, 1/1 × 1.2) = 1`, not 0: the completeness ratio
counts every present feature against the weight keys. -/
theorem weighted_zero_present_confidence_counterexample :
    Scoring.presentWeighted [("industryScore", (1:ℚ))]
      [("companySize", Scoring.FeatureValue.num 50)] = []
    ∧ (Scoring.applyAlgorithm [("industryScore", (1:ℚ))] ⟨80, 50, 0⟩
        [("companySize", Scoring.FeatureValue.num 50)]).score = 0
    ∧ (Scoring.applyAlgorithm [("industryScore", (1:ℚ))] ⟨80, 50, 0⟩
        [("companySize", Scoring.FeatureValue.num 50)]).confidence = some 1 := by
  refine ⟨by simp [Scoring.presentWeighted, Scoring.featureWeight, List.lookup], ?_, ?_⟩
  · have hsc : (Scoring.applyAlgorithm [("industryScore", (1:ℚ))] ⟨80, 50, 0⟩
        [("companySize", Scoring.FeatureValue.num 50)]).score =
        round2 (Scoring.finalScore [("industryScore", (1:ℚ))]
          [("companySize", Scoring.FeatureValue.num 50)]) := rfl
    rw [hsc]
    have hfs : Scoring.finalScore [("industryScore", (1:ℚ))]
        [("companySize", Scoring.FeatureValue.num 50)] = 0 := by
      simp [Scoring.finalScore, Scoring.scoringFold, Scoring.featureWeight, List.lookup]
    rw [hfs, round2_zero]
  · have hcf : (Scoring.applyAlgorithm [("industryScore", (1:ℚ))] ⟨80, 50, 0⟩
        [("companySize", Scoring.FeatureValue.num 50)]).confidence =
        (Scoring.jsConfidence 1 1).map round2 := rfl
    rw [hcf]
    unfold Scoring.jsConfidence
    rw [if_neg (by norm_num)]
    simp only [Nat.cast_one, Option.map_some]
    rw [min_eq_left (by norm_num)]
    norm_num [round2, jsRound]

/-- C8 (amended): for all-non-negative weights the score lies in [0, 100]
and every feature value normalizes into [0, 1]; the confidence lies in
[0, 1] whenever at least one weight is configured or at least one feature
is present — but with an empty weight map and no present features the
completeness ratio is the JavaScript `0/0 = NaN`, so the confidence is
NaN rather than a number in [0, 1]. -/
theorem applyAlgorithm_bounds (weights : List (String × ℚ)) (thresholds : Scoring.Thresholds)
    (features : List (String × Scoring.FeatureValue))
    (hw : ∀ p ∈ weights, 0 ≤ p.2) :
    (0 ≤ (Scoring.applyAlgorithm weights thresholds features).score
      ∧ (Scoring.applyAlgorithm weights thresholds features).score ≤ 100)
    ∧ ((weights ≠ [] ∨ 0 < Scoring.presentCount features) →
      ∃ c, (Scoring.applyAlgorithm weights thresholds features).confidence = some c
        ∧ 0 ≤ c ∧ c ≤ 1)
    ∧ (∀ v, 0 ≤ Scoring.normalizeFeatureValue v ∧ Scoring.normalizeFeatureValue v ≤ 1) := by
  have hb := Scoring.scoringFold_bounds weights hw features
  have hsc : (Scoring.applyAlgorithm weights thresholds features).score =
      round2 (Scoring.finalScore weights features) := rfl
  have hfs : 0 ≤ Scoring.finalScore weights features
      ∧ Scoring.finalScore weights features ≤ 100 := by
    unfold Scoring.finalScore
    by_cases hpos : 0 < (Scoring.scoringFold weights features).2.1
    · rw [if_pos hpos]
      constructor
      · exact mul_nonneg (div_nonneg hb.1 hpos.le) (by norm_num)
      · have h1 : (Scoring.scoringFold weights features).1 /
            (Scoring.scoringFold weights features).2.1 ≤ 1 :=
          (div_le_one hpos).mpr hb.2
        nlinarith
    · rw [if_neg hpos]
      norm_num
  refine ⟨?_, ?_, fun v => Scoring.normalizeFeatureValue_mem_Icc v⟩
  · rw [hsc]
    refine ⟨round2_nonneg _ hfs.1, ?_⟩
    have := round2_le (Scoring.finalScore weights features) 100 (by exact_mod_cast hfs.2)
    exact_mod_cast this
  · intro hcond
    have hcf : (Scoring.applyAlgorithm weights thresholds features).confidence =
        (Scoring.jsConfidence (Scoring.presentCount features) weights.length).map round2 := rfl
    rw [hcf]
    unfold Scoring.jsConfidence
    by_cases hlen : weights.length = 0
    · rw [if_pos hlen]
      have hpc : Scoring.presentCount features ≠ 0 := by
        rcases hcond with hne | hpos
        · exact absurd (List.length_eq_zero.mp hlen) hne
        · omega
      rw [if_neg hpc]
      refine ⟨round2 1, rfl, round2_nonneg _ (by norm_num), ?_⟩
      have := round2_le (1 : ℚ) 1 (by norm_num)
      exact_mod_cast this
    · rw [if_neg hlen]
      refine ⟨round2 (min 1 ((Scoring.presentCount features : ℚ) /
          (weights.length : ℚ) * (6/5))), rfl, ?_, ?_⟩
      · exact round2_nonneg _ (le_min (by norm_num) (by positivity))
      · have := round2_le (min 1 ((Scoring.presentCount features : ℚ) /
          (weights.length : ℚ) * (6/5))) 1 (by exact_mod_cast min_le_left _ _)
        exact_mod_cast this

/-- C8 witness: one weighted feature present at 50 with weight 1 — the
score bound clause at a concrete input. -/
theorem applyAlgorithm_bounds_witness :
    (∀ p ∈ [("companySize", (1:ℚ))], 0 ≤ p.2)
    ∧ 0 ≤ (Scoring.applyAlgorithm [("companySize", (1:ℚ))] ⟨80, 50, 0⟩
        [("companySize", Scoring.FeatureValue.num 50)]).score
    ∧ (Scoring.applyAlgorithm [("companySize", (1:ℚ))] ⟨80, 50, 0⟩
        [("companySize", Scoring.FeatureValue.num 50)]).score ≤ 100 :=
  ⟨by intro p hp; simp only [List.mem_singleton] at hp; subst hp; norm_num,
    (applyAlgorithm_bounds [("companySize", (1:ℚ))] ⟨80, 50, 0⟩
      [("companySize", Scoring.FeatureValue.num 50)]
      (by intro p hp; simp only [List.mem_singleton] at hp; subst hp; norm_num)).1⟩

/-- C8 counterexample: with an empty weight map and an empty feature
vector the JS confidence is `Math.min(1, 0/0 × 1.2) = NaN` (modelled as
`none`), which is not a number in [0, 1]. -/
theorem confidence_nan_counterexample :
    (Scoring.applyAlgorithm [] ⟨80, 50, 0⟩ []).confidence = none := rfl

namespace Scoring

theorem lookup_cons_ne {β : Type} (a g : String) (b : β) (l : List (String × β))
    (h : g ≠ a) : List.lookup g ((a, b) :: l) = List.lookup g l := by
  rw [List.lookup_cons]
  have hba : (g == a) = false := beq_eq_false_iff_ne.mpr h
  rw [hba]

theorem lookup_filter_self {β : Type} (f : String) (weights : List (String × β)) :
    List.lookup f (weights.filter (fun p => !(p.1 == f))) = none := by
  induction weights with
  | nil => rfl
  | cons p rest ih =>
    obtain ⟨a, b⟩ := p
    rw [List.filter_cons]
    by_cases haf : a = f
    · subst haf
      rw [if_neg (by simp)]
      exact ih
    · rw [if_pos (by simp [haf]), lookup_cons_ne a f b _ (fun h => haf h.symm)]
      exact ih

theorem lookup_filter_ne {β : Type} (weights : List (String × β)) (f g : String)
    (hne : g ≠ f) :
    List.lookup g (weights.filter (fun p => !(p.1 == f))) = List.lookup g weights := by
  induction weights with
  | nil => rfl
  | cons p rest ih =>
    obtain ⟨a, b⟩ := p
    rw [List.filter_cons]
    by_cases haf : a = f
    · subst haf
      rw [if_neg (by simp), lookup_cons_ne a g b rest hne]
      exact ih
    · rw [if_pos (by simp [haf])]
      by_cases hga : g = a
      · subst hga
        rw [List.lookup_cons_self, List.lookup_cons_self]
      · rw [lookup_cons_ne a g b _ hga, lookup_cons_ne a g b _ hga]
        exact ih

theorem featureWeight_filter (weights : List (String × ℚ)) (f : String)
    (hf : List.lookup f weights = some 0) (g : String) :
    featureWeight (weights.filter (fun p => !(p.1 == f))) g = featureWeight weights g := by
  by_cases hgf : g = f
  · subst hgf
    unfold featureWeight
    rw [hf, lookup_filter_self g weights]
    simp
  · unfold featureWeight
    rw [lookup_filter_ne weights f g hgf]

theorem scoringFold_congr (w1 w2 : List (String × ℚ))
    (h : ∀ g, featureWeight w1 g = featureWeight w2 g)
    (features : List (String × FeatureValue)) :
    scoringFold w1 features = scoringFold w2 features := by
  induction features with
  | nil => rfl
  | cons p rest ih =>
    obtain ⟨f, v⟩ := p
    simp only [scoringFold]
    rw [h f, ih]

end Scoring

/-- C10: a feature with a configured weight of 0 is excluded from the
weighted sum exactly like a feature without a weight entry: the fold's
total score (numerator), total weight (denominator) and impact list — and
hence the reported score, ranked explanation factors and category — are
identical to those computed with the zero-weight entry removed, while the
present feature still counts with +1 in the numerator of the confidence
completeness ratio. -/
theorem zero_weight_feature_excluded (features1 features2 : List (String × Scoring.FeatureValue))
    (f : String) (v : Scoring.FeatureValue) (weights : List (String × ℚ))
    (thresholds : Scoring.Thresholds)
    (hv : v ≠ Scoring.FeatureValue.undef) (hw : List.lookup f weights = some 0) :
    Scoring.scoringFold weights (features1 ++ (f, v) :: features2) =
      Scoring.scoringFold (weights.filter (fun p => !(p.1 == f)))
        (features1 ++ (f, v) :: features2)
    ∧ (Scoring.applyAlgorithm weights thresholds (features1 ++ (f, v) :: features2)).score =
      (Scoring.applyAlgorithm (weights.filter (fun p => !(p.1 == f))) thresholds
        (features1 ++ (f, v) :: features2)).score
    ∧ (Scoring.applyAlgorithm weights thresholds
        (features1 ++ (f, v) :: features2)).topFactors =
      (Scoring.applyAlgorithm (weights.filter (fun p => !(p.1 == f))) thresholds
        (features1 ++ (f, v) :: features2)).topFactors
    ∧ (Scoring.applyAlgorithm weights thresholds (features1 ++ (f, v) :: features2)).category =
      (Scoring.applyAlgorithm (weights.filter (fun p => !(p.1 == f))) thresholds
        (features1 ++ (f, v) :: features2)).category
    ∧ Scoring.presentCount (features1 ++ (f, v) :: features2) =
      Scoring.presentCount (features1 ++ features2) + 1 := by
  have hcong := Scoring.scoringFold_congr weights (weights.filter (fun p => !(p.1 == f)))
    (fun g => (Scoring.featureWeight_filter weights f hw g).symm)
    (features1 ++ (f, v) :: features2)
  have hfs : Scoring.finalScore weights (features1 ++ (f, v) :: features2) =
      Scoring.finalScore (weights.filter (fun p => !(p.1 == f)))
        (features1 ++ (f, v) :: features2) := by
    unfold Scoring.finalScore
    rw [hcong]
  refine ⟨hcong, ?_, ?_, ?_, ?_⟩
  · have h1 : (Scoring.applyAlgorithm weights thresholds
        (features1 ++ (f, v) :: features2)).score =
        round2 (Scoring.finalScore weights (features1 ++ (f, v) :: features2)) := rfl
    have h2 : (Scoring.applyAlgorithm (weights.filter (fun p => !(p.1 == f))) thresholds
        (features1 ++ (f, v) :: features2)).score =
        round2 (Scoring.finalScore (weights.filter (fun p => !(p.1 == f)))
          (features1 ++ (f, v) :: features2)) := rfl
    rw [h1, h2, hfs]
  · have h1 : (Scoring.applyAlgorithm weights thresholds
        (features1 ++ (f, v) :: features2)).topFactors =
        (Scoring.sortImpacts
          (Scoring.scoringFold weights (features1 ++ (f, v) :: features2)).2.2).take 5 := rfl
    have h2 : (Scoring.applyAlgorithm (weights.filter (fun p => !(p.1 == f))) thresholds
        (features1 ++ (f, v) :: features2)).topFactors =
        (Scoring.sortImpacts
          (Scoring.scoringFold (weights.filter (fun p => !(p.1 == f)))
            (features1 ++ (f, v) :: features2)).2.2).take 5 := rfl
    rw [h1, h2, hcong]
  · have h1 : (Scoring.applyAlgorithm weights thresholds
        (features1 ++ (f, v) :: features2)).category =
        Scoring.categorize thresholds
          (Scoring.finalScore weights (features1 ++ (f, v) :: features2)) := rfl
    have h2 : (Scoring.applyAlgorithm (weights.filter (fun p => !(p.1 == f))) thresholds
        (features1 ++ (f, v) :: features2)).category =
        Scoring.categorize thresholds
          (Scoring.finalScore (weights.filter (fun p => !(p.1 == f)))
            (features1 ++ (f, v) :: features2)) := rfl
    rw [h1, h2, hfs]
  · unfold Scoring.presentCount
    rw [List.filter_append, List.filter_append, List.filter_cons, if_pos (by simp [hv])]
    simp only [List.length_append, List.length_cons]
    omega

/-- C10 witness: feature "a" present at 50 with weight 0 next to feature
"b" at 30 with weight 1 — the score agrees with the run where the
zero-weight entry is filtered out, and "a" still counts as present. -/
theorem zero_weight_feature_excluded_witness :
    (Scoring.FeatureValue.num 50 ≠ Scoring.FeatureValue.undef)
    ∧ (Scoring.applyAlgorithm [("a", (0:ℚ)), ("b", 1)] ⟨80, 50, 0⟩
        ([] ++ ("a", Scoring.FeatureValue.num 50) ::
          [("b", Scoring.FeatureValue.num 30)])).score =
      (Scoring.applyAlgorithm ([("a", (0:ℚ)), ("b", 1)].filter (fun p => !(p.1 == "a")))
        ⟨80, 50, 0⟩ ([] ++ ("a", Scoring.FeatureValue.num 50) ::
          [("b", Scoring.FeatureValue.num 30)])).score
    ∧ Scoring.presentCount ([] ++ ("a", Scoring.FeatureValue.num 50) ::
        [("b", Scoring.FeatureValue.num 30)]) =
      Scoring.presentCount ([] ++ [("b", Scoring.FeatureValue.num 30)]) + 1 :=
  ⟨by simp,
    (zero_weight_feature_excluded [] [("b", Scoring.FeatureValue.num 30)] "a"
      (Scoring.FeatureValue.num 50) [("a", (0:ℚ)), ("b", 1)] ⟨80, 50, 0⟩ (by simp)
      (by simp)).2.1,
    (zero_weight_feature_excluded [] [("b", Scoring.FeatureValue.num 30)] "a"
      (Scoring.FeatureValue.num 50) [("a", (0:ℚ)), ("b", 1)] ⟨80, 50, 0⟩ (by simp)
      (by simp)).2.2.2.2⟩
